import Mathlib

/-!
Verification development for the tidb-gateway repository: a shallow embedding
of the MySQL wire-framing layer (`mysql/conn.go`), the compression layer
(`mysql/compress.go`), the buffer codec (`Buffer`), and the gateway routing and
handshake-forwarding logic (`gateway` package), together with theorems settling
the specification claims about them.

Conventions of the embedding:
* machine integers are `Nat` with explicit `% 2^w` at the points where the Go
  code performs a narrowing conversion or relies on unsigned overflow;
* byte strings are `List Nat` (each element a byte value), Go `string`s are
  `List Char`;
* the byte stream of a framed connection is represented by the sequence of
  wire packets travelling on it: a wire packet `(plen, seq)` stands for a
  4-byte header carrying payload length `plen` and sequence byte `seq`,
  followed by `plen` payload bytes.  `Conn.WritePacket` inspects only the
  length of its payload argument and copies the payload bytes verbatim
  (`c.w.Write(data[:plen])`), so the model carries payload lengths;
* fallible reads return `Except String`.
-/

/-- `MaxPayloadLen` from `mysql/conn.go`: `1<<24 - 1` (written `2^24 - 1`),
the maximum payload of one wire packet. -/
def MaxPayloadLen : Nat := 2 ^ 24 - 1

/-- `SeqResetNone` from `mysql/conn.go`. -/
def SeqResetNone : Nat := 0

/-- `SeqResetOnRead` from `mysql/conn.go`. -/
def SeqResetOnRead : Nat := 1

/-- `SeqResetOnWrite` from `mysql/conn.go`. -/
def SeqResetOnWrite : Nat := 2

/-- `SeqResetBoth` from `mysql/conn.go`. -/
def SeqResetBoth : Nat := 3

/-- State of the `Compressor` struct of `mysql/compress.go` that the claims
depend on: its own sequence counter, its pending reset flags, and the number
of bytes currently in `writeBuffer` (the pending-write buffer).  The
`readBuffer`/`flushBuffer` contents and the zlib stream itself are not needed
by any claim and are not modelled. -/
structure Compressor where
  sequence : Nat
  seqreset : Nat
  writeBufferLen : Nat
deriving DecidableEq

/-- `NewCompressor` from `mysql/compress.go`: all counters and buffers start
empty/zero. -/
def NewCompressor : Compressor :=
  { sequence := 0, seqreset := 0, writeBufferLen := 0 }

/-- `Compressor.SetResetOption` from `mysql/compress.go`: plain assignment of
the flag word. -/
def Compressor.SetResetOption (c : Compressor) (opt : Nat) : Compressor :=
  { c with seqreset := opt }

/-- Which pair of reader/writer the `Conn` currently routes its I/O through:
fresh `bufio` wrappers around the raw transport (as built by `NewConn` and
`SetRawConn`), or the compression layer (after `EnableCompression`). -/
inductive RWState where
  | bufio : RWState
  | compressed : RWState
deriving DecidableEq

/-- The `Conn` struct of `mysql/conn.go`.  `connId` stands for the identity of
the raw `net.Conn`; `rw` abstracts the `r`/`w` fields (see `RWState`). -/
structure Conn where
  connId : Nat
  rw : RWState
  sequence : Nat
  seqreset : Nat
  maxAllowedPacket : Nat
  compressor : Option Compressor
deriving DecidableEq

/-- `NewConn` from `mysql/conn.go`: fresh bufio reader/writer, zero counters,
`maxAllowedPacket = math.MaxUint64`, no compressor. -/
def NewConn (conn : Nat) : Conn :=
  { connId := conn, rw := RWState.bufio, sequence := 0, seqreset := 0,
    maxAllowedPacket := 2 ^ 64 - 1, compressor := none }

/-- `Conn.SetRawConn` from `mysql/conn.go`: assigns the new raw conn and
re-creates the bufio reader and writer around it.  It touches no other field
of the struct. -/
def Conn.SetRawConn (c : Conn) (conn : Nat) : Conn :=
  { c with connId := conn, rw := RWState.bufio }

/-- `Conn.SetMaxAllowedPacket` from `mysql/conn.go`. -/
def Conn.SetMaxAllowedPacket (c : Conn) (m : Nat) : Conn :=
  { c with maxAllowedPacket := m }

/-- `Conn.SetResetOption` from `mysql/conn.go`: assigns the flag word and, when
a compressor is installed, forwards the same flags to it. -/
def Conn.SetResetOption (c : Conn) (opt : Nat) : Conn :=
  { c with seqreset := opt,
           compressor := c.compressor.map (fun comp => comp.SetResetOption opt) }

/-- `Conn.EnableCompression` from `mysql/conn.go`: installs a fresh compressor
as the connection's reader and writer. -/
def Conn.EnableCompression (c : Conn) : Conn :=
  { c with compressor := some NewCompressor, rw := RWState.compressed }

/-- The `for` loop of `Conn.WritePacket` (`mysql/conn.go` lines 208-234),
started with `dataLen` payload bytes left and sequence counter `seq`, with the
chunk size abstracted as `m1 + 1` (instantiated to `MaxPayloadLen` in
`writePacketLoop`; the `+ 1` keeps the chunk size positive for termination).
Each iteration emits one wire packet of `plen = min(dataLen, chunk size)`
payload bytes carrying the current sequence byte, increments the `uint8`
sequence counter, and drops the emitted bytes; it returns as soon as no
payload bytes remain.  Returns the emitted wire packets and the final
sequence counter. -/
def writePacketLoopAux (m1 dataLen seq : Nat) : List (Nat × Nat) × Nat :=
  let plen := if dataLen ≥ m1 + 1 then m1 + 1 else dataLen
  let seq1 := (seq + 1) % 256
  -- after emitting `plen` bytes, `len(data) == 0` holds iff `dataLen ≤ plen`,
  -- i.e. iff the payload fits in one chunk; otherwise the loop continues with
  -- the remaining bytes (in that branch `plen` is the full chunk size)
  if _h : dataLen ≤ m1 + 1 then
    ([(plen, seq)], seq1)
  else
    let r := writePacketLoopAux m1 (dataLen - (m1 + 1)) seq1
    ((plen, seq) :: r.1, r.2)
termination_by dataLen
decreasing_by omega

/-- The chunking loop at the connection's chunk size
(`MaxPayloadLen = (MaxPayloadLen - 1) + 1`). -/
def writePacketLoop (dataLen seq : Nat) : List (Nat × Nat) × Nat :=
  writePacketLoopAux (MaxPayloadLen - 1) dataLen seq

/-- `Conn.WritePacket` from `mysql/conn.go`: consume a pending
reset-on-write mark (zeroing the sequence counter), then run the chunking
loop.  Returns the wire packets written to `c.w` and the updated conn. -/
def Conn.WritePacket (c : Conn) (dataLen : Nat) : List (Nat × Nat) × Conn :=
  let st :=
    if c.seqreset &&& SeqResetOnWrite ≠ 0 then
      (0, c.seqreset &&& (255 ^^^ SeqResetOnWrite))
    else
      (c.sequence, c.seqreset)
  let r := writePacketLoop dataLen st.1
  (r.1, { c with sequence := r.2, seqreset := st.2 })

/-- Iterate `Conn.WritePacket` over a list of payload lengths, concatenating
the emitted wire packets (the shape of the sequence-continuity test). -/
def writeAll (c : Conn) : List Nat → List (Nat × Nat) × Conn
  | [] => ([], c)
  | l :: rest =>
    let r1 := Conn.WritePacket c l
    let r2 := writeAll r1.2 rest
    (r1.1 ++ r2.1, r2.2)

/-- `Conn.ReadPartialPacket` from `mysql/conn.go`: read one wire packet from
the incoming stream.  Reading the 4-byte header fails on an exhausted stream;
then a pending reset-on-read mark is consumed, the header's sequence byte is
checked against the counter (fatal mismatch), the counter is incremented, and
the payload is delivered.  Returns the payload length, the updated conn and
the remaining stream. -/
def Conn.ReadPartialPacket (c : Conn) :
    List (Nat × Nat) → Except String (Nat × Conn × List (Nat × Nat))
  | [] => Except.error "EOF"
  | (plen, seqB) :: rest =>
    let st :=
      if c.seqreset &&& SeqResetOnRead ≠ 0 then
        (0, c.seqreset &&& (255 ^^^ SeqResetOnRead))
      else
        (c.sequence, c.seqreset)
    if seqB ≠ st.1 then
      Except.error "invalid sequence"
    else
      Except.ok (plen, { c with sequence := (st.1 + 1) % 256, seqreset := st.2 }, rest)

/-- The loop of `Conn.ReadPacket` (`mysql/conn.go` lines 162-173) with
`Conn.ReadPartialPacket` inlined so that the recursion is structural on the
stream: keep reading wire packets, accumulating the delivered payload length
in `acc`, until a packet shorter than `MaxPayloadLen` arrives.  Note the
faithful absence of any `maxAllowedPacket` comparison: the source loop never
consults that field. -/
def Conn.ReadPacketLoop (c : Conn) (acc : Nat) :
    List (Nat × Nat) → Except String (Nat × Conn × List (Nat × Nat))
  | [] => Except.error "EOF"
  | (plen, seqB) :: rest =>
    let st :=
      if c.seqreset &&& SeqResetOnRead ≠ 0 then
        (0, c.seqreset &&& (255 ^^^ SeqResetOnRead))
      else
        (c.sequence, c.seqreset)
    if seqB ≠ st.1 then
      Except.error "invalid sequence"
    else
      let c1 : Conn := { c with sequence := (st.1 + 1) % 256, seqreset := st.2 }
      if plen < MaxPayloadLen then
        Except.ok (acc + plen, c1, rest)
      else
        Conn.ReadPacketLoop c1 (acc + plen) rest

/-- `Conn.ReadPacket` from `mysql/conn.go`: read one complete logical packet,
returning the total payload length delivered into the caller's buffer. -/
def Conn.ReadPacket (c : Conn) (input : List (Nat × Nat)) :
    Except String (Nat × Conn × List (Nat × Nat)) :=
  Conn.ReadPacketLoop c 0 input

/-- `minCompressLen` from `mysql/compress.go`: a pending-write buffer shorter
than this is flushed without compression. -/
def minCompressLen : Nat := 128

/-- `maxBufferLen` from `mysql/compress.go`: `(1 << 23) - 1`
(written `2^23 - 1`). -/
def maxBufferLen : Nat := 2 ^ 23 - 1

/-- `Compressor.Write` from `mysql/compress.go`, at the level of byte counts
(the compressor buffers raw bytes; only their number matters to the framing
claims), with the buffer bound abstracted as `c1 + 1` (instantiated to
`maxBufferLen` in `Compressor.WriteLoop`; the `+ 1` keeps the bound positive
for termination).  Starting with `bufLen` bytes pending in `writeBuffer` and
`pLen` incoming bytes: while bytes remain, compute `capacity = bound -
writeBuffer.Len()`; if everything fits, append and return, otherwise fill the
buffer to capacity, auto-flush (which empties `writeBuffer`), and continue.
Returns the final pending length and the number of auto-flushes performed. -/
def Compressor.WriteLoopAux (c1 bufLen pLen : Nat) : Nat × Nat :=
  if pLen = 0 then (bufLen, 0)
  else
    let capacity := (c1 + 1) - bufLen
    if capacity ≥ pLen then (bufLen + pLen, 0)
    else
      let r := Compressor.WriteLoopAux c1 0 (pLen - capacity)
      (r.1, r.2 + 1)
termination_by 2 * pLen + (if bufLen = 0 then 0 else 1)
decreasing_by by_cases hb : bufLen = 0 <;> simp [hb] <;> omega

/-- The `Compressor.Write` loop at the compressor's buffer bound
(`maxBufferLen = (maxBufferLen - 1) + 1`). -/
def Compressor.WriteLoop (bufLen pLen : Nat) : Nat × Nat :=
  Compressor.WriteLoopAux (maxBufferLen - 1) bufLen pLen

/-- A sequence of `Compressor.Write` calls (as issued by `Conn.WritePacket`,
which writes each wire packet as a 4-byte header write followed by a payload
write), threading the pending length and summing the auto-flush counts. -/
def Compressor.writeSeq (bufLen : Nat) (pieces : List Nat) : Nat × Nat :=
  pieces.foldl
    (fun st n =>
      let r := Compressor.WriteLoop st.1 n
      (r.1, st.2 + r.2))
    (bufLen, 0)

/-- The `uncompressed-length` field (`head[4:7]`) of the frame emitted by
`Compressor.Flush` (`mysql/compress.go` lines 108-153) as a function of the
pending-write buffer length: below `minCompressLen` the payload is sent
literally and the field is written as 0; otherwise the payload is deflated
and the field is written as `writeBuffer.Len()`.  (The deflated byte count
that fills `head[0:3]` is abstracted away; no claim depends on it.) -/
def flushUncompressedLenField (bufLen : Nat) : Nat :=
  if bufLen < minCompressLen then 0 else bufLen

/-- One `Conn.WritePacket(payload)` on a freshly compression-enabled
connection followed by `Conn.Flush`: every wire packet emitted by the
chunking loop reaches `Compressor.Write` as a 4-byte header write and a
payload write, and the final flush stamps `flushUncompressedLenField` of the
pending length into the frame header.  Returns that field value. -/
def writePacketThenFlushField (payloadLen : Nat) : Nat :=
  let pieces := ((writePacketLoop payloadLen 0).1).foldr
    (fun pk acc => 4 :: pk.1 :: acc) []
  let r := Compressor.writeSeq 0 pieces
  flushUncompressedLenField r.1

/-- `binary.LittleEndian.PutUint16` as used by `Buffer.WriteUint16`:
two little-endian bytes. -/
def WriteUint16 (n : Nat) : List Nat :=
  [n % 256, (n >>> 8) % 256]

/-- `Buffer.WriteUint24`: `WriteUint16(uint16(n & 0xFFFF))` then
`WriteByte(byte(n >> 16))`. -/
def WriteUint24 (n : Nat) : List Nat :=
  WriteUint16 (n &&& 0xFFFF) ++ [(n >>> 16) % 256]

/-- `binary.LittleEndian.PutUint64` as used by `Buffer.WriteUint64`:
eight little-endian bytes. -/
def WriteUint64 (n : Nat) : List Nat :=
  [n % 256, (n >>> 8) % 256, (n >>> 16) % 256, (n >>> 24) % 256,
   (n >>> 32) % 256, (n >>> 40) % 256, (n >>> 48) % 256, (n >>> 56) % 256]

/-- `Buffer.WriteLenencInt`: values below 251 as one byte, then a `0xFC`
prefix with a u16, a `0xFD` prefix with a u24, or a `0xFE` prefix with a u64.
The `switch` guards of the source are sequential, so the `if` chain is
equivalent; `byte(n)`, `uint16(n)` and `uint32(n)` are the Go narrowing
conversions. -/
def WriteLenencInt (n : Nat) : List Nat :=
  if n < 251 then [n % 256]
  else if n < (1 <<< 16) then 0xFC :: WriteUint16 (n % (1 <<< 16))
  else if n < (1 <<< 24) then 0xFD :: WriteUint24 (n % (1 <<< 32))
  else 0xFE :: WriteUint64 n

/-- `Buffer.ReadUint16`: two bytes, combined little-endian
(`binary.LittleEndian.Uint16`). -/
def ReadUint16 : List Nat → Except String (Nat × List Nat)
  | b0 :: b1 :: rest => Except.ok (b0 ||| (b1 <<< 8), rest)
  | _ => Except.error "EOF"

/-- `Buffer.ReadUint24`: a u16 followed by one byte,
`uint32(u16) | uint32(b3)<<16`. -/
def ReadUint24 (input : List Nat) : Except String (Nat × List Nat) :=
  match ReadUint16 input with
  | Except.ok (u, b3 :: rest) => Except.ok (u ||| (b3 <<< 16), rest)
  | Except.ok (_, []) => Except.error "EOF"
  | Except.error e => Except.error e

/-- `Buffer.ReadUint64`: eight bytes, combined little-endian
(`binary.LittleEndian.Uint64`). -/
def ReadUint64 : List Nat → Except String (Nat × List Nat)
  | b0 :: b1 :: b2 :: b3 :: b4 :: b5 :: b6 :: b7 :: rest =>
    Except.ok
      (b0 ||| (b1 <<< 8) ||| (b2 <<< 16) ||| (b3 <<< 24) ||| (b4 <<< 32) |||
        (b5 <<< 40) ||| (b6 <<< 48) ||| (b7 <<< 56), rest)
  | _ => Except.error "EOF"

/-- `Buffer.ReadLenencInt`: first byte below `0xFC` is the value itself;
`0xFC`/`0xFD`/`0xFE` prefix a u16/u24/u64; anything else (only `0xFF`) is a
format error. -/
def ReadLenencInt : List Nat → Except String (Nat × List Nat)
  | [] => Except.error "EOF"
  | b1 :: rest =>
    if b1 < 0xFC then Except.ok (b1, rest)
    else if b1 = 0xFC then ReadUint16 rest
    else if b1 = 0xFD then ReadUint24 rest
    else if b1 = 0xFE then ReadUint64 rest
    else Except.error "invalid lenenc int"

/-- `strings.EqualFold` as used by `BackendConfigs.Find`: case-insensitive
string equality (simple case folding; for the ASCII cluster identifiers this
is lower-casing both sides). -/
def eqFold (a b : List Char) : Bool :=
  a.map Char.toLower == b.map Char.toLower

/-- `BackendConfigs` from the gateway config: an ordered list of
`(ClusterID, Address)` entries. -/
abbrev BackendConfigs := List (List Char × List Char)

/-- `BackendConfigs.Find`: first entry whose `ClusterID` matches
case-insensitively; an absent cluster resolves to the queried identifier
itself. -/
def BackendConfigs.Find (b : BackendConfigs) (cluster : List Char) : List Char :=
  match b with
  | [] => cluster
  | c :: rest => if eqFold c.1 cluster then c.2 else BackendConfigs.Find rest cluster

/-- `strings.SplitN(s, sep, 2)` restricted to a one-character separator, as
both results the caller uses: the part before the first separator, and
(when the separator occurs) the remainder after it. -/
def splitN2 (sep : Char) : List Char → List Char × Option (List Char)
  | [] => ([], none)
  | c :: rest =>
    if c = sep then ([], some rest)
    else
      let r := splitN2 sep rest
      (c :: r.1, r.2)

/-- `regexp.MatchString` with the anchored pattern of `getBackendAddr`: the
string matches iff it ends in a colon followed by one or more decimal digits
(`Char.isDigit` is exactly the character class `0`-`9`). -/
def matchPortSuffix (s : List Char) : Bool :=
  let r := s.reverse
  let ds := r.takeWhile Char.isDigit
  !ds.isEmpty && ((r.drop ds.length).head? == some ':')

/-- `Gateway.getBackendAddr` (user-name variant): split the client user name
at the first `.` into cluster identifier and forwarded user name (a single
segment becomes the cluster identifier, with the forwarded user name set to
the empty string), resolve the cluster through `BackendConfigs.Find`, and
append `:4000` unless the resolved address already ends in a colon followed
by digits.  Returns the backend address and the forwarded user name. -/
def Gateway.getBackendAddr (confs : BackendConfigs) (userName : List Char) :
    List Char × List Char :=
  let sp := splitN2 '.' userName
  let clusterID := sp.1
  let newUserName := sp.2.getD []
  let clusterAddr := BackendConfigs.Find confs clusterID
  let clusterAddr :=
    if matchPortSuffix clusterAddr then clusterAddr
    else clusterAddr ++ [':', '4', '0', '0', '0']
  (clusterAddr, newUserName)

/-- Modelled from the spec: the capability-bit constants referenced by the
source (the constants file itself is not under src/).  The spec requires the
proxy to be bit-compatible with the documented MySQL client/server protocol,
whose assignment for `CLIENT_COMPRESS` this is. -/
def ClientCompress : Nat := 0x00000020

/-- Modelled from the spec: documented MySQL `CLIENT_SECURE_CONNECTION` bit. -/
def ClientSecureConnection : Nat := 0x00008000

/-- Modelled from the spec: documented MySQL `CLIENT_PLUGIN_AUTH` bit. -/
def ClientPluginAuth : Nat := 0x00080000

/-- Modelled from the spec: `AuthInvalidMethod`, the intentionally-unknown
auth plugin name the gateway forwards (its value is defined in the constants
file that is not under src/; only its identity matters here). -/
def AuthInvalidMethod : List Char := ("invalid_auth_method").toList

/-- The all-ones 32-bit mask: Go's `^x` on a `uint32` complements against it. -/
def mask32 : Nat := 0xFFFFFFFF

/-- The `HandshakeResponse` struct of `mysql/packet_handshake_response.go`
(the attribute map as an association list). -/
structure HandshakeResponse where
  Capability : Nat
  MaxPacketSize : Nat
  CharacterSet : Nat
  UserName : List Char
  DBName : List Char
  Auth : List Nat
  AuthPlugin : List Char
  Attrs : List (List Char × List Char)
deriving DecidableEq

/-- The mutation block of `Gateway.handleConn` applied to the decoded
`HandshakeResponse` before it is re-encoded for the backend: clear
`ClientCompress`; when the gateway is configured with
`BackendInsecureTransport`, clear `ClientSecureConnection`; set
`ClientPluginAuth` and replace `AuthPlugin` with `AuthInvalidMethod`. -/
def mutateHandshakeResponse (backendInsecureTransport : Bool)
    (res : HandshakeResponse) : HandshakeResponse :=
  let cap1 := res.Capability &&& (mask32 ^^^ ClientCompress)
  let cap2 :=
    if backendInsecureTransport then cap1 &&& (mask32 ^^^ ClientSecureConnection)
    else cap1
  let cap3 := cap2 ||| ClientPluginAuth
  { res with Capability := cap3, AuthPlugin := AuthInvalidMethod }

/-- Little-endian recombination: or-ing a value below `2^k` with a `k`-bit
left shift is plain addition of the shifted part. -/
theorem lor_shiftLeft_eq_add (a b k : Nat) (h : a < 2 ^ k) :
    a ||| (b <<< k) = a + 2 ^ k * b := by
  have hmod : (a + 2 ^ k * b) % 2 ^ k = a := by
    rw [Nat.add_mul_mod_self_left, Nat.mod_eq_of_lt h]
  have hdiv : (a + 2 ^ k * b) / 2 ^ k = b := by
    rw [Nat.add_mul_div_left _ _ (Nat.pos_pow_of_pos _ (by norm_num)),
      Nat.div_eq_of_lt h, Nat.zero_add]
  apply Nat.eq_of_testBit_eq
  intro i
  rw [Nat.testBit_lor, Nat.testBit_shiftLeft]
  by_cases hik : k ≤ i
  · have ha : a.testBit i = false :=
      Nat.testBit_eq_false_of_lt
        (lt_of_lt_of_le h (Nat.pow_le_pow_right (by norm_num) hik))
    have hb : b = (a + 2 ^ k * b) >>> k := by
      rw [Nat.shiftRight_eq_div_pow, hdiv]
    have hi : k + (i - k) = i := by omega
    have hbt : b.testBit (i - k) = (a + 2 ^ k * b).testBit i := by
      conv_lhs => rw [hb]
      rw [Nat.testBit_shiftRight, hi]
    rw [ha, hbt]
    simp [hik]
  · have hlt : i < k := by omega
    have ha : a.testBit i = ((a + 2 ^ k * b) % 2 ^ k).testBit i := by rw [hmod]
    rw [ha, Nat.testBit_mod_two_pow]
    simp [hik, hlt]

theorem MaxPayloadLen_eq : MaxPayloadLen = 16777215 := by norm_num [MaxPayloadLen]

theorem maxBufferLen_eq : maxBufferLen = 8388607 := by norm_num [maxBufferLen]

/-- A payload that fits in one chunk is emitted as a single wire packet
carrying the current sequence byte. -/
theorem writePacketLoopAux_le (m1 l s : Nat) (h : l ≤ m1 + 1) :
    writePacketLoopAux m1 l s = ([(l, s)], (s + 1) % 256) := by
  unfold writePacketLoopAux
  have hp : (if l ≥ m1 + 1 then m1 + 1 else l) = l := by
    split <;> omega
  simp only [hp, dif_pos h]

/-- A payload of at most `MaxPayloadLen` bytes is emitted as a single wire
packet carrying the current sequence byte. -/
theorem writePacketLoop_le (l s : Nat) (h : l ≤ MaxPayloadLen) :
    writePacketLoop l s = ([(l, s)], (s + 1) % 256) := by
  unfold writePacketLoop
  apply writePacketLoopAux_le
  have := MaxPayloadLen_eq
  omega

/-- An oversized payload emits one full chunk and continues with the rest. -/
theorem writePacketLoop_gt (l s : Nat) (h : MaxPayloadLen < l) :
    writePacketLoop l s =
      ((MaxPayloadLen, s) :: (writePacketLoop (l - MaxPayloadLen) ((s + 1) % 256)).1,
       (writePacketLoop (l - MaxPayloadLen) ((s + 1) % 256)).2) := by
  have hm : MaxPayloadLen - 1 + 1 = MaxPayloadLen := by
    have := MaxPayloadLen_eq
    omega
  unfold writePacketLoop
  conv_lhs => rw [writePacketLoopAux]
  rw [hm]
  have hp : (if l ≥ MaxPayloadLen then MaxPayloadLen else l) = MaxPayloadLen := by
    split <;> omega
  simp only [hp, dif_neg (by omega : ¬ l ≤ MaxPayloadLen)]

/-- A `Compressor.Write` whose bytes fit in the remaining capacity appends
them without any auto-flush. -/
theorem compressorWriteLoop_fits (bufLen pLen : Nat)
    (h : bufLen + pLen ≤ maxBufferLen) :
    Compressor.WriteLoop bufLen pLen = (bufLen + pLen, 0) := by
  have hm : maxBufferLen - 1 + 1 = maxBufferLen := by
    have := maxBufferLen_eq
    omega
  unfold Compressor.WriteLoop
  rw [Compressor.WriteLoopAux, hm]
  by_cases h0 : pLen = 0
  · simp [h0]
  · have hcap : maxBufferLen - bufLen ≥ pLen := by omega
    simp only [h0, if_false, if_pos hcap]

/-- One short write from a conn with no pending reset emits a single packet
with the current sequence byte and advances the `uint8` counter. -/
theorem writePacket_short (c : Conn) (l : Nat) (hl : l < MaxPayloadLen)
    (h0 : c.seqreset = 0) :
    Conn.WritePacket c l
      = ([(l, c.sequence)],
         { c with sequence := (c.sequence + 1) % 256, seqreset := 0 }) := by
  unfold Conn.WritePacket
  rw [h0]
  simp only [SeqResetOnWrite]
  norm_num
  rw [writePacketLoop_le l c.sequence (le_of_lt hl)]
  exact ⟨rfl, rfl⟩

/-- Sequence bytes over a run of short writes: starting from counter `s` with
no pending reset, the `i`-th write carries sequence byte `(s + i) % 256`. -/
theorem writeAll_seq (lens : List Nat) :
    ∀ c : Conn, (∀ l ∈ lens, l < MaxPayloadLen) → c.seqreset = 0 →
      c.sequence < 256 →
      (writeAll c lens).1.map Prod.snd
        = (List.range lens.length).map (fun i => (c.sequence + i) % 256) := by
  induction lens with
  | nil => intro c _ _ _; simp [writeAll]
  | cons l rest ih =>
    intro c hl h0 hs
    have hw := writePacket_short c l (hl l (List.mem_cons_self l rest)) h0
    have hrest : ∀ x ∈ rest, x < MaxPayloadLen :=
      fun x hx => hl x (List.mem_cons_of_mem l hx)
    have hmod : (c.sequence + 1) % 256 < 256 := Nat.mod_lt _ (by norm_num)
    simp only [writeAll, hw, List.map_append, List.map_cons]
    rw [ih _ hrest rfl hmod]
    dsimp only [List.map_nil, List.nil_append, List.length_cons]
    rw [List.range_succ_eq_map, List.map_cons, List.map_map,
      List.singleton_append]
    congr 1
    · rw [Nat.add_zero, Nat.mod_eq_of_lt hs]
    · apply List.map_congr_left
      intro a _
      simp only [Function.comp_apply]
      omega

/-- A write with no pending reset mark runs the chunking loop at the current
sequence counter. -/
theorem writePacket_noReset (c : Conn) (dataLen : Nat) (h0 : c.seqreset = 0) :
    Conn.WritePacket c dataLen
      = ((writePacketLoop dataLen c.sequence).1,
         { c with sequence := (writePacketLoop dataLen c.sequence).2 }) := by
  unfold Conn.WritePacket
  rw [h0]
  simp only [SeqResetOnWrite]
  norm_num

/-- A short write with a pending reset-on-write mark emits sequence byte 0. -/
theorem writePacket_onWriteReset_fst (c : Conn) (l : Nat) (hl : l < MaxPayloadLen)
    (h2 : c.seqreset &&& SeqResetOnWrite ≠ 0) :
    (Conn.WritePacket c l).1 = [(l, 0)] := by
  unfold Conn.WritePacket
  simp only [if_pos h2]
  rw [writePacketLoop_le l 0 (le_of_lt hl)]

/-- Claim C1: `Conn.WritePacket` on a payload that is a positive exact
multiple of `2^24 - 1` bytes.  The spec (and the legacy `writePacket` variant,
and this file's own `ReadPacket`) requires a zero-length terminator packet,
but the loop in `mysql/conn.go` returns as soon as no payload bytes remain:
a payload of exactly `2^24 - 1` bytes is emitted as ONE wire packet (not two),
a payload of `2 * (2^24 - 1)` bytes as two full packets (not three), and the
same file's `ReadPacket` then fails on the writer's own output because it
keeps waiting for a chunk shorter than `2^24 - 1`.  The `2^24 - 2` half of the
claim does hold. -/
theorem claim1_writePacket_exact_multiple_lacks_terminator :
    (Conn.WritePacket (NewConn 0) MaxPayloadLen).1 = [(MaxPayloadLen, 0)] ∧
    (Conn.WritePacket (NewConn 0) (2 * MaxPayloadLen)).1
      = [(MaxPayloadLen, 0), (MaxPayloadLen, 1)] ∧
    (Conn.WritePacket (NewConn 0) (MaxPayloadLen - 1)).1
      = [(MaxPayloadLen - 1, 0)] ∧
    Conn.ReadPacket (NewConn 0) [(MaxPayloadLen, 0)] = Except.error "EOF" := by
  refine ⟨?_, ?_, ?_, ?_⟩
  · rw [writePacket_noReset _ _ rfl]
    rw [writePacketLoop_le _ _ (le_refl _)]
    rfl
  · rw [writePacket_noReset _ _ rfl]
    rw [writePacketLoop_gt _ _ (by rw [MaxPayloadLen_eq]; omega)]
    have h2 : 2 * MaxPayloadLen - MaxPayloadLen = MaxPayloadLen := by omega
    rw [h2, writePacketLoop_le _ _ (le_refl _)]
    rfl
  · rw [writePacket_noReset _ _ rfl]
    rw [writePacketLoop_le _ _ (Nat.sub_le _ _)]
    rfl
  · rfl

/-- Claim C4 (counterexample): `SetRawConn` does NOT reset the framing state:
on a conn with sequence counter 5 and an installed compressor with its own
counter at 9, replacing the transport leaves both untouched (the claim says
the sequence counter becomes zero and the compression layer is fresh). -/
theorem claim4_counterexample_setRawConn_keeps_state :
    (Conn.SetRawConn
        { connId := 0, rw := RWState.compressed, sequence := 5, seqreset := 0,
          maxAllowedPacket := 7,
          compressor := some { sequence := 9, seqreset := 0, writeBufferLen := 3 } }
        1).sequence = 5 ∧
    (Conn.SetRawConn
        { connId := 0, rw := RWState.compressed, sequence := 5, seqreset := 0,
          maxAllowedPacket := 7,
          compressor := some { sequence := 9, seqreset := 0, writeBufferLen := 3 } }
        1).compressor = some { sequence := 9, seqreset := 0, writeBufferLen := 3 } ∧
    (5 : Nat) ≠ 0 :=
  ⟨rfl, rfl, by decide⟩

/-- Claim C4 (amended): `SetRawConn` replaces the raw transport and re-creates
the buffered reader and writer around it; every other field — the sequence
counter, the pending reset flags, the packet-size bound and any installed
compression layer — is left unchanged. -/
theorem claim4_setRawConn_replaces_buffers_only (c : Conn) (conn : Nat) :
    (c.SetRawConn conn).connId = conn ∧
    (c.SetRawConn conn).rw = RWState.bufio ∧
    (c.SetRawConn conn).sequence = c.sequence ∧
    (c.SetRawConn conn).seqreset = c.seqreset ∧
    (c.SetRawConn conn).maxAllowedPacket = c.maxAllowedPacket ∧
    (c.SetRawConn conn).compressor = c.compressor :=
  ⟨rfl, rfl, rfl, rfl, rfl, rfl⟩

/-- Claim C5: `ReadPacket` never consults the `maxAllowedPacket` bound.  For
EVERY bound `M` — in particular `M = 1` — a logical packet of cumulative
payload length 2 is delivered successfully instead of failing with the
oversized-packet error (`errNetPacketTooLarge` is declared in `mysql/conn.go`
but never returned there). -/
theorem claim5_readPacket_ignores_maxAllowedPacket (M : Nat) :
    Conn.ReadPacket ((NewConn 0).SetMaxAllowedPacket M) [(2, 0)]
      = Except.ok (2,
          { connId := 0, rw := RWState.bufio, sequence := 1, seqreset := 0,
            maxAllowedPacket := M, compressor := none },
          ([] : List (Nat × Nat))) := by
  unfold Conn.ReadPacket Conn.ReadPacketLoop
  norm_num [NewConn, Conn.SetMaxAllowedPacket, SeqResetOnRead, MaxPayloadLen]

/-- Claim C6: over `N` sequential `WritePacket` calls of short payloads from a
fresh conn the wire sequence bytes are `0, 1, …, (N-1) % 256`; and after
`SetResetOption(SeqResetOnWrite)` the very next `WritePacket` emits sequence
byte 0. -/
theorem claim6_sequence_continuity :
    (∀ lens : List Nat, (∀ l ∈ lens, l < MaxPayloadLen) →
       (writeAll (NewConn 0) lens).1.map Prod.snd
         = (List.range lens.length).map (fun i => i % 256)) ∧
    (∀ (c : Conn) (l : Nat), l < MaxPayloadLen →
       ((c.SetResetOption SeqResetOnWrite).WritePacket l).1 = [(l, 0)]) := by
  constructor
  · intro lens hl
    have h := writeAll_seq lens (NewConn 0) hl rfl (by norm_num [NewConn])
    simpa [NewConn] using h
  · intro c l hl
    refine writePacket_onWriteReset_fst _ l hl ?_
    show SeqResetOnWrite &&& SeqResetOnWrite ≠ 0
    decide

/-- Claim C10: `SetResetOption` assigns the flag word outright — a mark
pending for the other direction is discarded, not merged — and mirrors the
same flags into the installed compression layer (whose other fields, like the
conn's, are untouched). -/
theorem claim10_setResetOption_assigns (c : Conn) (opt : Nat) :
    (c.SetResetOption opt).seqreset = opt ∧
    (c.SetResetOption opt).compressor
      = c.compressor.map (fun comp => { comp with seqreset := opt }) ∧
    (c.SetResetOption opt).sequence = c.sequence ∧
    (c.SetResetOption SeqResetOnWrite).seqreset &&& SeqResetOnRead = 0 ∧
    (c.SetResetOption SeqResetOnRead).seqreset &&& SeqResetOnWrite = 0 :=
  ⟨rfl, rfl, rfl,
    show SeqResetOnWrite &&& SeqResetOnRead = 0 by decide,
    show SeqResetOnRead &&& SeqResetOnWrite = 0 by decide⟩

/-- A `Compressor.Write` that fits (stated on the parametrized loop). -/
theorem writeLoopAux_fits (c1 bufLen pLen : Nat) (h : bufLen + pLen ≤ c1 + 1) :
    Compressor.WriteLoopAux c1 bufLen pLen = (bufLen + pLen, 0) := by
  rw [Compressor.WriteLoopAux]
  by_cases h0 : pLen = 0
  · simp [h0]
  · have hcap : (c1 + 1) - bufLen ≥ pLen := by omega
    simp only [h0, if_false, if_pos hcap]

/-- Starting from an empty pending buffer, the pending length never exceeds
the buffer bound. -/
theorem writeLoopAux_zero_le (c1 : Nat) :
    ∀ pLen, (Compressor.WriteLoopAux c1 0 pLen).1 ≤ c1 + 1 := by
  intro pLen
  induction pLen using Nat.strong_induction_on with
  | _ p ih =>
    rw [Compressor.WriteLoopAux]
    by_cases h0 : p = 0
    · simp [h0]
    · by_cases hcap : (c1 + 1) - 0 ≥ p
      · simp only [h0, if_false, if_pos hcap]
        omega
      · simp only [h0, if_false, if_neg hcap]
        exact ih _ (by omega)

/-- The pending length never exceeds the buffer bound. -/
theorem writeLoopAux_le (c1 bufLen pLen : Nat) (h : bufLen ≤ c1 + 1) :
    (Compressor.WriteLoopAux c1 bufLen pLen).1 ≤ c1 + 1 := by
  rw [Compressor.WriteLoopAux]
  by_cases h0 : pLen = 0
  · simpa [h0] using h
  · by_cases hcap : (c1 + 1) - bufLen ≥ pLen
    · simp only [h0, if_false, if_pos hcap]
      omega
    · simp only [h0, if_false, if_neg hcap]
      exact writeLoopAux_zero_le c1 _

/-- A write that would overrun the buffer bound performs at least one
auto-flush. -/
theorem writeLoopAux_flush_pos (c1 bufLen pLen : Nat) (h0 : 0 < pLen)
    (h : c1 + 1 < bufLen + pLen) :
    1 ≤ (Compressor.WriteLoopAux c1 bufLen pLen).2 := by
  rw [Compressor.WriteLoopAux]
  have hcap : ¬ ((c1 + 1) - bufLen ≥ pLen) := by omega
  simp only [if_neg (by omega : ¬ pLen = 0), if_neg hcap]
  omega

/-- Claim C9 (amended): the write path of the compression layer auto-flushes
exactly when accepting more bytes would make the pending-write buffer exceed
`maxBufferLen = 2^23 - 1` (not `2^24 - 1`): a write that fits is appended with
no flush, a write that would overrun flushes at least once, and the pending
length never exceeds the bound. -/
theorem claim9_autoflush_threshold :
    maxBufferLen = 2 ^ 23 - 1 ∧
    (∀ bufLen pLen, bufLen ≤ maxBufferLen →
       (Compressor.WriteLoop bufLen pLen).1 ≤ maxBufferLen) ∧
    (∀ bufLen pLen, bufLen + pLen ≤ maxBufferLen →
       Compressor.WriteLoop bufLen pLen = (bufLen + pLen, 0)) ∧
    (∀ bufLen pLen, 0 < pLen → maxBufferLen < bufLen + pLen →
       1 ≤ (Compressor.WriteLoop bufLen pLen).2) := by
  have hm : maxBufferLen - 1 + 1 = maxBufferLen := by rw [maxBufferLen_eq]
  refine ⟨rfl, ?_, compressorWriteLoop_fits, ?_⟩
  · intro bufLen pLen h
    unfold Compressor.WriteLoop
    have := writeLoopAux_le (maxBufferLen - 1) bufLen pLen (by omega)
    omega
  · intro bufLen pLen h0 h
    unfold Compressor.WriteLoop
    exact writeLoopAux_flush_pos _ _ _ h0 (by omega)

/-- Claim C9 witness: a 5-byte write into an empty pending buffer is appended
with no auto-flush. -/
theorem claim9_witness : Compressor.WriteLoop 0 5 = (0 + 5, 0) :=
  claim9_autoflush_threshold.2.2.1 0 5 (by rw [maxBufferLen_eq]; omega)

/-- Claim C9 (counterexample): writing `2^23` bytes into an empty pending
buffer — which would NOT exceed the `2^24 - 1` bound the claim states —
already triggers exactly one auto-flush, because the code's bound is
`2^23 - 1`. -/
theorem claim9_counterexample_flush_below_claimed_bound :
    (Compressor.WriteLoop 0 (2 ^ 23)).2 = 1 ∧ 0 + 2 ^ 23 ≤ 2 ^ 24 - 1 := by
  constructor
  · unfold Compressor.WriteLoop
    rw [Compressor.WriteLoopAux]
    rw [maxBufferLen_eq]
    have hcap : ¬ ((8388607 - 1 + 1) - 0 ≥ 2 ^ 23) := by norm_num
    rw [if_neg (by norm_num : ¬ (2 ^ 23 : Nat) = 0), if_neg hcap]
    have hin : Compressor.WriteLoopAux (8388607 - 1) 0 (2 ^ 23 - ((8388607 - 1 + 1) - 0))
        = (0 + (2 ^ 23 - ((8388607 - 1 + 1) - 0)), 0) :=
      writeLoopAux_fits _ _ _ (by norm_num)
    rw [hin]
  · norm_num

/-- Two consecutive compressor writes that fit cumulatively are both appended
without auto-flush. -/
theorem writeSeq_pair_fits (a b : Nat) (h : a + b ≤ maxBufferLen) :
    Compressor.writeSeq 0 [a, b] = (a + b, 0) := by
  unfold Compressor.writeSeq
  simp only [List.foldl]
  rw [compressorWriteLoop_fits 0 a (by omega)]
  simp only []
  rw [compressorWriteLoop_fits (0 + a) b (by omega)]
  norm_num

/-- The pending byte count after one `WritePacket(payload)` of at most
`MaxPayloadLen` bytes on a freshly compression-enabled conn, then the frame
field stamped by the flush. -/
theorem writePacketThenFlushField_short (l : Nat) (hl : l ≤ MaxPayloadLen)
    (hfit : 4 + l ≤ maxBufferLen) :
    writePacketThenFlushField l = flushUncompressedLenField (4 + l) := by
  unfold writePacketThenFlushField
  rw [writePacketLoop_le _ _ hl]
  simp only [List.foldr]
  rw [writeSeq_pair_fits 4 l hfit]

/-- Claim C8 (counterexample): a 127-byte packet payload written through a
compression-enabled connection reaches the compressor as 131 bytes (4-byte
wire header + payload), so the flushed frame's uncompressed-length field is
131 — not 0 as the claim states; likewise a 128-byte payload yields 132,
not 128. -/
theorem claim8_counterexample_payload_thresholds :
    writePacketThenFlushField 127 = 131 ∧ (131 : Nat) ≠ 0 ∧
    writePacketThenFlushField 128 = 132 ∧ (132 : Nat) ≠ 128 := by
  have h127 : writePacketThenFlushField 127 = flushUncompressedLenField 131 :=
    writePacketThenFlushField_short 127 (by rw [MaxPayloadLen_eq]; omega)
      (by rw [maxBufferLen_eq]; omega)
  have h128 : writePacketThenFlushField 128 = flushUncompressedLenField 132 :=
    writePacketThenFlushField_short 128 (by rw [MaxPayloadLen_eq]; omega)
      (by rw [maxBufferLen_eq]; omega)
  refine ⟨?_, by norm_num, ?_, by norm_num⟩
  · rw [h127]; unfold flushUncompressedLenField minCompressLen; norm_num
  · rw [h128]; unfold flushUncompressedLenField minCompressLen; norm_num

/-- Claim C8 (amended): the 128-byte threshold of `Compressor.Flush` applies
to the pending-write buffer contents, which for a packet written through the
connection include the 4-byte wire header: flushing with 127 pending bytes
emits `uncompressed-length = 0` (literal payload), with 128 pending bytes it
deflates and stamps 128; a 127-byte packet payload yields 131 pending bytes
(deflated, field 131) and a 128-byte payload yields 132 (deflated,
field 132). -/
theorem claim8_flush_threshold_on_pending_buffer :
    (∀ bufLen, flushUncompressedLenField bufLen = 0 ↔ bufLen < minCompressLen) ∧
    (∀ bufLen, minCompressLen ≤ bufLen → flushUncompressedLenField bufLen = bufLen) ∧
    flushUncompressedLenField 127 = 0 ∧
    flushUncompressedLenField 128 = 128 ∧
    writePacketThenFlushField 127 = 131 ∧
    writePacketThenFlushField 128 = 132 := by
  have h127 : writePacketThenFlushField 127 = flushUncompressedLenField 131 :=
    writePacketThenFlushField_short 127 (by rw [MaxPayloadLen_eq]; omega)
      (by rw [maxBufferLen_eq]; omega)
  have h128 : writePacketThenFlushField 128 = flushUncompressedLenField 132 :=
    writePacketThenFlushField_short 128 (by rw [MaxPayloadLen_eq]; omega)
      (by rw [maxBufferLen_eq]; omega)
  refine ⟨?_, ?_, by decide, by decide, ?_, ?_⟩
  · intro bufLen
    unfold flushUncompressedLenField minCompressLen
    constructor
    · intro h
      by_contra hc
      simp only [if_neg (by omega : ¬ bufLen < 128)] at h
      omega
    · intro h
      simp [h]
  · intro bufLen h
    unfold flushUncompressedLenField
    rw [if_neg (by omega : ¬ bufLen < minCompressLen)]
  · rw [h127]; decide
  · rw [h128]; decide

/-- Claim C8 witness: flushing with 200 pending bytes stamps 200 into the
frame's uncompressed-length field. -/
theorem claim8_witness : flushUncompressedLenField 200 = 200 :=
  claim8_flush_threshold_on_pending_buffer.2.1 200 (by decide)

/-- A cluster identifier matching no configured entry resolves to itself. -/
theorem find_default (confs : BackendConfigs) (id : List Char)
    (h : ∀ e ∈ confs, eqFold e.1 id = false) :
    BackendConfigs.Find confs id = id := by
  induction confs with
  | nil => rfl
  | cons c rest ih =>
    have hc := h c (List.mem_cons_self c rest)
    rw [BackendConfigs.Find, if_neg (by simp [hc])]
    exact ih (fun e he => h e (List.mem_cons_of_mem _ he))

/-- Splitting at the first separator occurrence. -/
theorem splitN2_first (sep : Char) (u1 u2 : List Char) (h : sep ∉ u1) :
    splitN2 sep (u1 ++ sep :: u2) = (u1, some u2) := by
  induction u1 with
  | nil => simp [splitN2]
  | cons a t ih =>
    have ha : ¬ a = sep := fun e => h (by simp [e])
    have ht : sep ∉ t := fun hm => h (List.mem_cons_of_mem _ hm)
    simp only [List.cons_append, splitN2, if_neg ha, List.append_eq, ih ht]

/-- A string without the separator is returned whole, with no remainder. -/
theorem splitN2_no_sep (sep : Char) (u : List Char) (h : sep ∉ u) :
    splitN2 sep u = (u, none) := by
  induction u with
  | nil => rfl
  | cons a t ih =>
    have ha : ¬ a = sep := fun e => h (by simp [e])
    have ht : sep ∉ t := fun hm => h (List.mem_cons_of_mem _ hm)
    simp only [splitN2, if_neg ha, ih ht]

/-- Claim C2: routing extraction and backend resolution.  The user name is
split at the first `.` (`"c1.alice"` routes to cluster `c1` forwarding user
`alice`; a single segment is the cluster identifier with empty forwarded
user); lookup in the directory is case-insensitive; an absent cluster
identifier resolves to itself; and `:4000` is appended unless the resolved
address already ends in a colon followed by digits. -/
theorem claim2_getBackendAddr_routing :
    Gateway.getBackendAddr [(("c1").toList, ("10.0.0.1").toList)] (("c1.alice").toList)
      = (("10.0.0.1:4000").toList, ("alice").toList) ∧
    Gateway.getBackendAddr [(("c1").toList, ("10.0.0.1:5000").toList)] (("c1.alice").toList)
      = (("10.0.0.1:5000").toList, ("alice").toList) ∧
    Gateway.getBackendAddr [(("c1").toList, ("10.0.0.1").toList)] (("c2.bob").toList)
      = (("c2:4000").toList, ("bob").toList) ∧
    Gateway.getBackendAddr [(("C1").toList, ("10.0.0.1").toList)] (("c1.alice").toList)
      = (("10.0.0.1:4000").toList, ("alice").toList) ∧
    Gateway.getBackendAddr [(("c1").toList, ("10.0.0.1").toList)] (("alice").toList)
      = (("alice:4000").toList, ([] : List Char)) ∧
    (∀ (confs : BackendConfigs) (id : List Char),
       (∀ e ∈ confs, eqFold e.1 id = false) → BackendConfigs.Find confs id = id) ∧
    (∀ u1 u2 : List Char, '.' ∉ u1 →
       splitN2 '.' (u1 ++ '.' :: u2) = (u1, some u2)) ∧
    (∀ u : List Char, '.' ∉ u → splitN2 '.' u = (u, none)) :=
  ⟨by decide, by decide, by decide, by decide, by decide,
   find_default, splitN2_first '.', splitN2_no_sep '.'⟩

/-- Claim C2 witness: a user name without a dot splits into itself as the
cluster identifier with no remainder. -/
theorem claim2_witness :
    splitN2 '.' (("alice").toList) = (("alice").toList, none) :=
  claim2_getBackendAddr_routing.2.2.2.2.2.2.2 (("alice").toList) (by decide)

theorem ClientCompress_eq : ClientCompress = 2 ^ 5 := by norm_num [ClientCompress]

theorem ClientSecureConnection_eq : ClientSecureConnection = 2 ^ 15 := by
  norm_num [ClientSecureConnection]

theorem ClientPluginAuth_eq : ClientPluginAuth = 2 ^ 19 := by
  norm_num [ClientPluginAuth]

theorem mask32_eq : mask32 = 2 ^ 32 - 1 := by norm_num [mask32]

/-- Bit view of the capability word produced by the forwarding mutation. -/
theorem mutate_capability_testBit (insecure : Bool) (res : HandshakeResponse)
    (i : Nat) :
    (mutateHandshakeResponse insecure res).Capability.testBit i
      = (((res.Capability.testBit i && (decide (i < 32) ^^ decide (5 = i))) &&
          (if insecure then (decide (i < 32) ^^ decide (15 = i)) else true)) ||
         decide (19 = i)) := by
  have hF : mutateHandshakeResponse false res
      = { res with
          Capability := (res.Capability &&& (mask32 ^^^ ClientCompress)) |||
            ClientPluginAuth,
          AuthPlugin := AuthInvalidMethod } := rfl
  have hT : mutateHandshakeResponse true res
      = { res with
          Capability := ((res.Capability &&& (mask32 ^^^ ClientCompress)) &&&
            (mask32 ^^^ ClientSecureConnection)) ||| ClientPluginAuth,
          AuthPlugin := AuthInvalidMethod } := rfl
  cases insecure
  · rw [hF]
    simp only [Nat.testBit_lor, Nat.testBit_land, Nat.testBit_xor, mask32_eq,
      ClientCompress_eq, ClientPluginAuth_eq, Nat.testBit_two_pow_sub_one,
      Nat.testBit_two_pow, if_neg (by simp : ¬ (false = true)), Bool.and_true]
  · rw [hT]
    simp only [Nat.testBit_lor, Nat.testBit_land, Nat.testBit_xor, mask32_eq,
      ClientCompress_eq, ClientSecureConnection_eq, ClientPluginAuth_eq,
      Nat.testBit_two_pow_sub_one, Nat.testBit_two_pow,
      if_pos (rfl : (true = true)), if_true, Bool.and_assoc]

/-- Claim C3: the forwarding mutation applied to the decoded
`HandshakeResponse` consists of exactly: clearing the Compress bit; clearing
the SecureConnection bit iff the gateway is configured for insecure backend
transport (otherwise that bit is untouched); setting the PluginAuth bit and
replacing the auth plugin name with the unknown `AuthInvalidMethod`; every
other capability bit and every other field is forwarded unchanged. -/
theorem claim3_forward_mutations (insecure : Bool) (res : HandshakeResponse)
    (hcap : res.Capability < 2 ^ 32) :
    ((mutateHandshakeResponse insecure res).Capability &&& ClientCompress = 0) ∧
    (insecure = true →
       (mutateHandshakeResponse insecure res).Capability &&&
         ClientSecureConnection = 0) ∧
    (insecure = false →
       (mutateHandshakeResponse insecure res).Capability &&&
           ClientSecureConnection
         = res.Capability &&& ClientSecureConnection) ∧
    ((mutateHandshakeResponse insecure res).Capability &&& ClientPluginAuth
       = ClientPluginAuth) ∧
    ((mutateHandshakeResponse insecure res).AuthPlugin = AuthInvalidMethod) ∧
    (∀ i, i ≠ 5 → i ≠ 15 → i ≠ 19 →
       (mutateHandshakeResponse insecure res).Capability.testBit i
         = res.Capability.testBit i) ∧
    ((mutateHandshakeResponse insecure res).MaxPacketSize = res.MaxPacketSize) ∧
    ((mutateHandshakeResponse insecure res).CharacterSet = res.CharacterSet) ∧
    ((mutateHandshakeResponse insecure res).UserName = res.UserName) ∧
    ((mutateHandshakeResponse insecure res).DBName = res.DBName) ∧
    ((mutateHandshakeResponse insecure res).Auth = res.Auth) ∧
    ((mutateHandshakeResponse insecure res).Attrs = res.Attrs) := by
  refine ⟨?_, ?_, ?_, ?_, ?_, ?_, ?_, ?_, ?_, ?_, ?_, ?_⟩
  · rw [ClientCompress_eq]
    apply Nat.eq_of_testBit_eq
    intro i
    rw [Nat.testBit_land, mutate_capability_testBit, Nat.testBit_two_pow,
      Nat.zero_testBit]
    by_cases hi : 5 = i
    · subst hi
      cases insecure <;> simp
    · simp [hi]
  · intro h
    subst h
    rw [ClientSecureConnection_eq]
    apply Nat.eq_of_testBit_eq
    intro i
    rw [Nat.testBit_land, mutate_capability_testBit, Nat.testBit_two_pow,
      Nat.zero_testBit]
    by_cases hi : 15 = i
    · subst hi
      simp
    · simp [hi]
  · intro h
    subst h
    rw [ClientSecureConnection_eq]
    apply Nat.eq_of_testBit_eq
    intro i
    rw [Nat.testBit_land, Nat.testBit_land, mutate_capability_testBit,
      Nat.testBit_two_pow]
    by_cases hi : 15 = i
    · subst hi
      simp
    · simp [hi]
  · rw [ClientPluginAuth_eq]
    apply Nat.eq_of_testBit_eq
    intro i
    rw [Nat.testBit_land, mutate_capability_testBit, Nat.testBit_two_pow]
    by_cases hi : 19 = i
    · subst hi
      simp
    · simp [hi]
  · cases insecure <;> rfl
  · intro i h5 h15 h19
    rw [mutate_capability_testBit]
    by_cases hi32 : i < 32
    · simp [show ¬ (5 = i) from fun e => h5 e.symm,
        show ¬ (15 = i) from fun e => h15 e.symm,
        show ¬ (19 = i) from fun e => h19 e.symm, hi32]
    · have hzero : res.Capability.testBit i = false :=
        Nat.testBit_eq_false_of_lt
          (lt_of_lt_of_le hcap (Nat.pow_le_pow_right (by norm_num) (by omega)))
      simp [hzero, show ¬ (19 = i) from fun e => h19 e.symm]
  · cases insecure <;> rfl
  · cases insecure <;> rfl
  · cases insecure <;> rfl
  · cases insecure <;> rfl
  · cases insecure <;> rfl
  · cases insecure <;> rfl

/-- Claim C3 witness: the mutation at a concrete all-bits-set response under
insecure backend transport clears Compress, keeps PluginAuth, and installs
the unknown plugin name. -/
theorem claim3_witness :
    ((mutateHandshakeResponse true
        { Capability := 4294967295, MaxPacketSize := 0, CharacterSet := 0,
          UserName := [], DBName := [], Auth := [], AuthPlugin := [],
          Attrs := [] }).Capability &&& ClientCompress = 0) ∧
    ((mutateHandshakeResponse true
        { Capability := 4294967295, MaxPacketSize := 0, CharacterSet := 0,
          UserName := [], DBName := [], Auth := [], AuthPlugin := [],
          Attrs := [] }).AuthPlugin = AuthInvalidMethod) := by
  have h := claim3_forward_mutations true
    { Capability := 4294967295, MaxPacketSize := 0, CharacterSet := 0,
      UserName := [], DBName := [], Auth := [], AuthPlugin := [], Attrs := [] }
    (by norm_num)
  exact ⟨h.1, h.2.2.2.2.1⟩

/-- Round-trip for the 2-byte little-endian arm. -/
theorem lenenc_roundtrip_u16 (x : Nat) (h1 : ¬ x < 251) (h2 : x < 1 <<< 16) :
    ReadLenencInt (WriteLenencInt x) = Except.ok (x, []) := by
  have hsh : (1 <<< 16 : Nat) = 65536 := by decide
  rw [hsh] at h2
  unfold WriteLenencInt WriteUint16
  rw [hsh]
  rw [if_neg h1, if_pos h2]
  simp only [ReadLenencInt]
  norm_num
  simp only [ReadUint16]
  congr 1
  rw [lor_shiftLeft_eq_add (x % 256) ((x % 65536) >>> 8 % 256) 8 (by omega)]
  simp only [Prod.mk.injEq, and_true]
  omega

/-- Round-trip for the 3-byte little-endian arm. -/
theorem lenenc_roundtrip_u24 (x : Nat) (h2 : ¬ x < 1 <<< 16)
    (h3 : x < 1 <<< 24) :
    ReadLenencInt (WriteLenencInt x) = Except.ok (x, []) := by
  have hsh16 : (1 <<< 16 : Nat) = 65536 := by decide
  have hsh24 : (1 <<< 24 : Nat) = 16777216 := by decide
  have hsh32 : (1 <<< 32 : Nat) = 4294967296 := by decide
  rw [hsh16] at h2
  rw [hsh24] at h3
  have h1 : ¬ x < 251 := by omega
  unfold WriteLenencInt WriteUint24 WriteUint16
  rw [hsh16, hsh24, hsh32]
  rw [if_neg h1, if_neg h2, if_pos h3]
  have hand : ∀ y : Nat, y &&& 65535 = y % 65536 := by
    intro y
    have h := Nat.and_pow_two_sub_one_eq_mod y 16
    norm_num at h
    exact h
  simp only [ReadLenencInt]
  norm_num [hand]
  simp only [ReadUint24, ReadUint16]
  congr 1
  rw [lor_shiftLeft_eq_add (x % 256) ((x % 65536) >>> 8 % 256) 8 (by omega)]
  rw [lor_shiftLeft_eq_add (x % 256 + 2 ^ 8 * ((x % 65536) >>> 8 % 256))
    ((x % 4294967296) >>> 16 % 256) 16 (by omega)]
  simp only [Prod.mk.injEq, and_true]
  omega

/-- Round-trip for the 8-byte little-endian arm. -/
theorem lenenc_roundtrip_u64 (x : Nat) (h3 : ¬ x < 1 <<< 24)
    (hx : x < 2 ^ 64) :
    ReadLenencInt (WriteLenencInt x) = Except.ok (x, []) := by
  have hsh16 : (1 <<< 16 : Nat) = 65536 := by decide
  have hsh24 : (1 <<< 24 : Nat) = 16777216 := by decide
  rw [hsh24] at h3
  have h1 : ¬ x < 251 := by omega
  have h2 : ¬ x < 1 <<< 16 := by rw [hsh16]; omega
  unfold WriteLenencInt WriteUint64
  rw [hsh16, hsh24]
  rw [if_neg h1, if_neg (hsh16 ▸ h2), if_neg h3]
  simp only [ReadLenencInt]
  norm_num
  simp only [ReadUint64]
  congr 1
  rw [lor_shiftLeft_eq_add (x % 256) (x >>> 8 % 256) 8 (by omega),
    show x % 256 + 2 ^ 8 * (x >>> 8 % 256) = x % 65536 from by omega]
  rw [lor_shiftLeft_eq_add (x % 65536) (x >>> 16 % 256) 16 (by omega),
    show x % 65536 + 2 ^ 16 * (x >>> 16 % 256) = x % 16777216 from by omega]
  rw [lor_shiftLeft_eq_add (x % 16777216) (x >>> 24 % 256) 24 (by omega),
    show x % 16777216 + 2 ^ 24 * (x >>> 24 % 256) = x % 4294967296 from by
      omega]
  rw [lor_shiftLeft_eq_add (x % 4294967296) (x >>> 32 % 256) 32 (by omega),
    show x % 4294967296 + 2 ^ 32 * (x >>> 32 % 256) = x % 1099511627776 from by
      omega]
  rw [lor_shiftLeft_eq_add (x % 1099511627776) (x >>> 40 % 256) 40 (by omega),
    show x % 1099511627776 + 2 ^ 40 * (x >>> 40 % 256) = x % 281474976710656
      from by omega]
  rw [lor_shiftLeft_eq_add (x % 281474976710656) (x >>> 48 % 256) 48
      (by omega),
    show x % 281474976710656 + 2 ^ 48 * (x >>> 48 % 256)
        = x % 72057594037927936 from by omega]
  rw [lor_shiftLeft_eq_add (x % 72057594037927936) (x >>> 56 % 256) 56
      (by omega),
    show x % 72057594037927936 + 2 ^ 56 * (x >>> 56 % 256)
        = x % 18446744073709551616 from by omega]
  simp only [Prod.mk.injEq, and_true]
  omega

/-- Claim C7: decoding a length-encoded integer recovers every encoded
`uint64` value, and the boundary values 250, 251, 0xFFFF, 0x10000, 0xFFFFFF,
0x1000000 encode to 1/3/3/4/4/9 bytes, with every value below 0xFB a single
byte. -/
theorem claim7_lenencInt_roundtrip_boundaries :
    (∀ x : Nat, x < 2 ^ 64 →
       ReadLenencInt (WriteLenencInt x) = Except.ok (x, [])) ∧
    (WriteLenencInt 250).length = 1 ∧
    (WriteLenencInt 251).length = 3 ∧
    (WriteLenencInt 0xFFFF).length = 3 ∧
    (WriteLenencInt 0x10000).length = 4 ∧
    (WriteLenencInt 0xFFFFFF).length = 4 ∧
    (WriteLenencInt 0x1000000).length = 9 ∧
    (∀ x : Nat, x < 0xFB → (WriteLenencInt x).length = 1) := by
  refine ⟨?_, by decide, by decide, by decide, by decide, by decide, by decide,
    ?_⟩
  · intro x hx
    by_cases h1 : x < 251
    · unfold WriteLenencInt
      rw [if_pos h1]
      simp only [ReadLenencInt]
      rw [if_pos (by omega : x % 256 < 0xFC),
        Nat.mod_eq_of_lt (by omega : x < 256)]
    · by_cases h2 : x < 1 <<< 16
      · exact lenenc_roundtrip_u16 x h1 h2
      · by_cases h3 : x < 1 <<< 24
        · exact lenenc_roundtrip_u24 x h2 h3
        · exact lenenc_roundtrip_u64 x h3 hx
  · intro x hx
    unfold WriteLenencInt
    rw [if_pos (by omega : x < 251)]
    rfl

/-- Claim C7 witness: the value 300 round-trips through the 0xFC-prefixed
form. -/
theorem claim7_witness :
    ReadLenencInt (WriteLenencInt 300) = Except.ok (300, []) :=
  claim7_lenencInt_roundtrip_boundaries.1 300 (by norm_num)

/-- Claim C6 witness: three short writes from a fresh conn carry sequence
bytes 0, 1, 2. -/
theorem claim6_witness :
    (writeAll (NewConn 0) [1, 2, 3]).1.map Prod.snd = [0, 1, 2] := by
  rw [claim6_sequence_continuity.1 [1, 2, 3] (by decide)]
  decide
